import Mathlib

/-!
Verification development for the UK Income Factory dividend dashboard
(src/streamlit_app.py).  The dividend forecasting and portfolio valuation
engine is embedded shallowly: monetary quantities, prices and yields are
modelled as exact rationals, calendar dates as (year, month, day) triples
together with the proleptic Gregorian ordinal (the day count underlying
datetime ordering and timedelta arithmetic), and the two HTTP providers as
function-valued parameters matching the sentinel conventions of
get_live_price and get_analyst_and_yield.  Division that pandas performs
on floats is modelled as an Option-valued operation whose none stands for
the non-finite float (NaN or inf) produced when the denominator is zero.
-/

/-- A calendar date as Python datetime carries it: year, month (1-12),
day (1-31).  Ordering and timedelta arithmetic are expressed through
toRD below. -/
structure Date where
  year : ℤ
  month : ℕ
  day : ℕ
deriving DecidableEq

/-- Leap-year test of the proleptic Gregorian calendar, as Python
datetime defines it. -/
def isLeap (y : ℤ) : Bool :=
  (y % 4 == 0 && y % 100 != 0) || (y % 400 == 0)

/-- Cumulative days before the given month in a non-leap year
(month 1 = January).  Out-of-range months, never produced by the
program, map to 0. -/
def cumDays (m : ℕ) : ℤ :=
  match m with
  | 1 => 0
  | 2 => 31
  | 3 => 59
  | 4 => 90
  | 5 => 120
  | 6 => 151
  | 7 => 181
  | 8 => 212
  | 9 => 243
  | 10 => 273
  | 11 => 304
  | 12 => 334
  | _ => 0

/-- Proleptic Gregorian ordinal of a date, the day count Python
datetime.toordinal computes (date 1-1-1 has ordinal 1).  Comparison of
valid datetimes and timedelta(days=n) addition coincide with comparison
and addition of this ordinal. -/
def toRD (d : Date) : ℤ :=
  365 * (d.year - 1) + (d.year - 1) / 4 - (d.year - 1) / 100 + (d.year - 1) / 400
    + cumDays d.month + (if 2 < d.month ∧ isLeap d.year then 1 else 0) + (d.day : ℤ)

/-- The window test of line 134 of the source:
today <= pay_date <= today + timedelta(days=365). -/
def inWindow (today payDate : Date) : Prop :=
  toRD today ≤ toRD payDate ∧ toRD payDate ≤ toRD today + 365

instance (t p : Date) : Decidable (inWindow t p) := instDecidableAnd

/-- Month number of an abbreviated month label, as
datetime.strptime(m, "%b") resolves the labels appearing in the fixed
schedule table (which are exactly these twelve strings; an unknown label
would make strptime raise, a case the fixed table never exercises). -/
def monthNum (m : String) : Option ℕ :=
  if m = "Jan" then some 1
  else if m = "Feb" then some 2
  else if m = "Mar" then some 3
  else if m = "Apr" then some 4
  else if m = "May" then some 5
  else if m = "Jun" then some 6
  else if m = "Jul" then some 7
  else if m = "Aug" then some 8
  else if m = "Sep" then some 9
  else if m = "Oct" then some 10
  else if m = "Nov" then some 11
  else if m = "Dec" then some 12
  else none

/-- Year resolution of lines 130-132 of the source:
year = today.year if month_num > today.month else today.year + 1,
followed by the statement adding 1 again when month_num < today.month. -/
def yearFor (today : Date) (mn : ℕ) : ℤ :=
  let y := if today.month < mn then today.year else today.year + 1
  if mn < today.month then y + 1 else y

/-- A raw holdings row after the normalizer: bare ticker code (column
Slice), display name, cost basis (column Value) and owned quantity. -/
structure Holding where
  slice : String
  name : String
  value : ℚ
  qty : ℚ
deriving DecidableEq

/-- An enriched holdings row: the df columns that the valuation
aggregator and the dividend scheduler read.  price is the live last
price and yield the trailing annual yield as a fraction (the source
stores yield_pct/100). -/
structure EnrichedHolding where
  slice : String
  name : String
  value : ℚ
  qty : ℚ
  price : ℚ
  yield : ℚ
deriving DecidableEq

/-- The enrichment loop of lines 81-93 of the source: for each row,
fetch the quote by listing symbol (Slice + ".L") and the analyst data by
bare ticker, then join the price and the fractional yield onto the row.
quoteOf models get_live_price (returns the (0, 0) sentinel on any
failure and never raises); analystOf models get_analyst_and_yield
(consensus label, optional price target, yield in percent). -/
def enrich (quoteOf : String → ℚ × ℚ)
    (analystOf : String → String × Option ℚ × ℚ)
    (rows : List Holding) : List EnrichedHolding :=
  rows.map (fun r =>
    let q := quoteOf (r.slice ++ ".L")
    let a := analystOf r.slice
    { slice := r.slice, name := r.name, value := r.value, qty := r.qty,
      price := q.1, yield := a.2.2 / 100 })

/-- Line 95 of the source: Market Value = price * Owned quantity. -/
def marketValue (r : EnrichedHolding) : ℚ := r.price * r.qty

/-- Line 98 of the source: total_now = df Market Value sum. -/
def totalMV (rows : List EnrichedHolding) : ℚ :=
  (rows.map marketValue).sum

/-- Float division as pandas performs it, with none standing for the
non-finite value (NaN or inf) a zero denominator produces. -/
def pdDiv (a b : ℚ) : Option ℚ :=
  if b = 0 then none else some (a / b)

/-- Line 97 of the source: Weight = Market Value / Market Value sum,
computed per row. -/
def weights (rows : List EnrichedHolding) : List (Option ℚ) :=
  rows.map (fun r => pdDiv (marketValue r) (totalMV rows))

/-- Line 143 of the source: the forward-yield metric
Market Value dot yield, divided by total_now. -/
def forwardYield (rows : List EnrichedHolding) : Option ℚ :=
  pdDiv ((rows.map (fun r => marketValue r * r.yield)).sum) (totalMV rows)

/-- The mean of the yield column (pandas Series.mean), meaningful on the
nonempty tables the display path evaluates it on. -/
def meanYield (rows : List EnrichedHolding) : ℚ :=
  (rows.map (fun r => r.yield)).sum / (rows.length : ℚ)

/-- Line 144 of the source, literally: the expression
df Market Value * df yield .mean() is an elementwise pandas Series, one
entry per holding, not a single number (no sum is taken). -/
def incomeSeries (rows : List EnrichedHolding) : List ℚ :=
  rows.map (fun r => marketValue r * meanYield rows)

/-- Modelled from the spec: the expected 12-month income estimate the
spec describes as the single number sum of market_value[i] times
mean(yield).  Stated for comparison with incomeSeries, the expression
the code actually evaluates. -/
def specIncomeNext12m (rows : List EnrichedHolding) : ℚ :=
  (rows.map (fun r => marketValue r * meanYield rows)).sum

/-- Round-half-to-even to an integer, the rounding Python's builtin
round performs. -/
def roundHalfEven (x : ℚ) : ℤ :=
  let f := ⌊x⌋
  let r := x - (f : ℚ)
  if r < 1/2 then f
  else if 1/2 < r then f + 1
  else if f % 2 = 0 then f else f + 1

/-- round(x, 2) of line 136 of the source: round to two decimal places,
half to even. -/
def round2 (x : ℚ) : ℚ :=
  (roundHalfEven (x * 100) : ℚ) / 100

/-- One projected dividend payment, the dict appended to future_divs on
line 136 of the source: pay date, ticker code, rounded amount. -/
structure DividendEvent where
  payDate : Date
  ticker : String
  amount : ℚ
deriving DecidableEq

/-- The fixed payment-month schedule of lines 103-116 of the source. -/
def known_div_schedule : List (String × List String) :=
  [ ("BP",   ["Mar", "Jun", "Sep", "Dec"]),
    ("AV",   ["May", "Oct"]),
    ("NG",   ["Jun", "Dec"]),
    ("MNG",  ["Apr", "Sep"]),
    ("LGEN", ["Mar", "Jun", "Sep", "Nov"]),
    ("SHEL", ["Mar", "Jun", "Sep", "Dec"]),
    ("RIO",  ["Mar", "Sep"]),
    ("HSBA", ["Mar", "Jun", "Sep", "Dec"]),
    ("BATS", ["Mar", "Jun", "Sep", "Dec"]),
    ("IMB",  ["Mar", "Sep"]),
    ("GLEN", ["Jun", "Dec"]) ]

/-- The per-event amount of lines 123-135 of the source before the
2-decimal rounding: quarterly * shares * (4/len(months)) where
quarterly = last_annual / 4 and
last_annual = price * (yield if yield > 0 else 0.04); n is
len(months). -/
def amountFormula (r : EnrichedHolding) (n : ℕ) : ℚ :=
  r.price * (if 0 < r.yield then r.yield else 1/25) / 4 * r.qty * (4 / (n : ℚ))

/-- The dividend events one holdings row contributes to future_divs
(lines 120-136 of the source).  A ticker absent from the schedule
contributes nothing (known_div_schedule.get(ticker, None) followed by
the `if months:` guard). -/
def eventsOfHolding (today : Date) (sched : List (String × List String))
    (r : EnrichedHolding) : List DividendEvent :=
  match sched.lookup r.slice with
  | none => []
  | some months =>
    months.filterMap (fun m =>
      (monthNum m).bind (fun mn =>
        let payDate : Date := ⟨yearFor today mn, mn, 15⟩
        if inWindow today payDate then
          some ⟨payDate, r.slice, round2 (amountFormula r months.length)⟩
        else none))

/-- All projected events across the holdings table, in row order.  The
source then sorts them by date for display; no claim concerns the
sort. -/
def future_divs (today : Date) (sched : List (String × List String))
    (rows : List EnrichedHolding) : List DividendEvent :=
  rows.flatMap (eventsOfHolding today sched)

/-- The hardwired reference date of line 119: datetime(2025, 11, 21). -/
def today2025 : Date := ⟨2025, 11, 21⟩

/-- Month abbreviation as strftime with format %b renders it in the
C locale (line 158 of the source). -/
def monthAbbrev (m : ℕ) : String :=
  match m with
  | 1 => "Jan"
  | 2 => "Feb"
  | 3 => "Mar"
  | 4 => "Apr"
  | 5 => "May"
  | 6 => "Jun"
  | 7 => "Jul"
  | 8 => "Aug"
  | 9 => "Sep"
  | 10 => "Oct"
  | 11 => "Nov"
  | 12 => "Dec"
  | _ => ""

/-- The groupby key of line 158 of the source: strftime("%b %Y") of the
pay date. -/
def monthLabel (d : Date) : String :=
  monthAbbrev d.month ++ " " ++ toString d.year

/-- The monthly bucketing of line 158 of the source: the groupby-sum
total of the bucket with the given label, i.e. the sum of the amounts of
the events whose pay date formats to that label. -/
def monthlyTotal (evs : List DividendEvent) (l : String) : ℚ :=
  ((evs.filter (fun e => monthLabel e.payDate == l)).map (fun e => e.amount)).sum

/-- A concrete BP holdings row used as a test vector: 10 shares, live
price 1, trailing yield 4 percent. -/
def bpRow : EnrichedHolding := ⟨"BP", "BP", 100, 10, 1, 1/25⟩

/-- A BP row with trailing yield 3.2 percent and one share, a test
vector whose event amount needs rounding. -/
def bp32Row : EnrichedHolding := ⟨"BP", "BP", 100, 1, 1, 4/125⟩

/-- A holdings row whose ticker is absent from the schedule table. -/
def zzRow : EnrichedHolding := ⟨"ZZZ", "Unknown", 50, 3, 2, 1/20⟩

/-- A one-row portfolio with positive market value. -/
def rows1 : List EnrichedHolding := [⟨"BP", "BP", 100, 10, 2, 1/20⟩]

/-- A one-row portfolio whose quote fetch failed: price 0, so the total
market value is 0. -/
def zeroRows : List EnrichedHolding := [⟨"AV", "Aviva", 10, 5, 0, 0⟩]

/-- A two-row portfolio with market values 10 and 40 and yields 4 and 6
percent (mean 5 percent). -/
def rows5 : List EnrichedHolding :=
  [⟨"AV", "Aviva", 90, 10, 1, 1/25⟩, ⟨"NG", "National Grid", 70, 20, 2, 3/50⟩]

/-- Two dividend events in January 2026 (different days, same month),
amounts 10.00 and 15.25. -/
def jan1 : DividendEvent := ⟨⟨2026, 1, 10⟩, "AV", 10⟩

/-- Second January 2026 event. -/
def jan2 : DividendEvent := ⟨⟨2026, 1, 24⟩, "NG", 61/4⟩

/-- A quote provider that always returns the unavailable sentinel
(price 0, previous close 0), as get_live_price does on any failure. -/
def qf0 : String → ℚ × ℚ := fun _ => (0, 0)

/-- An analyst provider that always returns the failure sentinel of
get_analyst_and_yield. -/
def af0 : String → String × Option ℚ × ℚ := fun _ => ("N/A", none, 0)

/-- A raw holding used with the sentinel providers. -/
def sampleHolding : Holding := ⟨"BP", "BP", 100, 10⟩

/-! ## Helper lemmas -/

/-- Evaluation of the scheduler on the BP test row at the hardwired
reference date: only the December event survives the window filter. -/
lemma bp_events_eval :
    eventsOfHolding today2025 known_div_schedule bpRow
      = [⟨⟨2025, 12, 15⟩, "BP", 1/10⟩] := by
  norm_num +decide [eventsOfHolding, known_div_schedule, bpRow, List.lookup,
    List.filterMap_cons, List.filterMap_nil, Option.some_bind, Option.none_bind,
    monthNum, yearFor, today2025, inWindow, toRD, cumDays, isLeap,
    round2, roundHalfEven, amountFormula]

/-- The pay date built from a doubly-incremented year lies more than 365
days after any day of the base year whose day-of-month is at most 31:
two year steps contribute at least 730 days and lose at most one for the
leap count, while moving within the year costs at most 351. -/
lemma payDate_far (t : Date) (mn : ℕ) (hd : t.day ≤ 31) :
    toRD t + 365 < toRD ⟨t.year + 2, mn, 15⟩ := by
  have hcum1 : 0 ≤ cumDays mn := by unfold cumDays; split <;> norm_num
  have hcum2 : cumDays t.month ≤ 334 := by unfold cumDays; split <;> norm_num
  have hA : (t.year - 1) / 4 ≤ (t.year + 2 - 1) / 4 :=
    Int.ediv_le_ediv (by norm_num) (by omega)
  have hB : (t.year + 2 - 1) / 100 ≤ (t.year - 1) / 100 + 1 := by
    calc (t.year + 2 - 1) / 100 ≤ ((t.year - 1) + 1 * 100) / 100 :=
          Int.ediv_le_ediv (by norm_num) (by omega)
      _ = (t.year - 1) / 100 + 1 := Int.add_mul_ediv_right _ _ (by norm_num)
  have hC : (t.year - 1) / 400 ≤ (t.year + 2 - 1) / 400 :=
    Int.ediv_le_ediv (by norm_num) (by omega)
  have hdz : (t.day : ℤ) ≤ 31 := by exact_mod_cast hd
  simp only [toRD]
  push_cast
  have hi1 : (0:ℤ) ≤ (if 2 < mn ∧ isLeap (t.year + 2) then 1 else 0) := by
    split <;> norm_num
  have hi2 : (if 2 < t.month ∧ isLeap t.year then (1:ℤ) else 0) ≤ 1 := by
    split <;> norm_num
  linarith [hA, hB, hC, hcum1, hcum2, hi1, hi2, hdz]

/-! ## Claims -/

/-- C2: in the year resolution of the Dividend Scheduler, a scheduled
month strictly after the current month keeps the current year, the
current month itself gets next year, and a month strictly before the
current month gets the year after next (the double increment). -/
theorem c2_year_resolution (today : Date) (mn : ℕ) :
    (today.month < mn → yearFor today mn = today.year) ∧
    (mn = today.month → yearFor today mn = today.year + 1) ∧
    (mn < today.month → yearFor today mn = today.year + 2) := by
  refine ⟨fun h => ?_, fun h => ?_, fun h => ?_⟩ <;>
    simp only [yearFor] <;> split_ifs <;> omega

/-- Witness for C2 at the program's reference date 2025-11-21:
December resolves to 2025, November to 2026, September to 2027. -/
theorem c2_year_resolution_witness :
    yearFor today2025 12 = 2025 ∧ yearFor today2025 11 = 2026 ∧
    yearFor today2025 9 = 2027 :=
  ⟨(c2_year_resolution today2025 12).1 (by decide),
   (c2_year_resolution today2025 11).2.1 (by decide),
   (c2_year_resolution today2025 9).2.2 (by decide)⟩

/-- C1 counterexample: at reference date 2025-11-21 with the BP
schedule, the scheduler's output is exactly the single December event
2025-12-15; no event dated 2026-09-15 (and no September event at all)
is produced, contradicting the claim. -/
theorem c1_sep_event_absent :
    eventsOfHolding today2025 known_div_schedule bpRow
        = [⟨⟨2025, 12, 15⟩, "BP", 1/10⟩] ∧
    ((eventsOfHolding today2025 known_div_schedule bpRow).all
        (fun e => decide (e.payDate ≠ ⟨2026, 9, 15⟩))) = true := by
  refine ⟨bp_events_eval, ?_⟩
  rw [bp_events_eval]; decide

/-- C1 amended: at reference date 2025-11-21 with the BP schedule, a
December event dated 2025-12-15 is produced (within the window), while
September resolves through the double year increment to 2027, and
2027-09-15 falls outside the 12-month window, so no September event is
produced. -/
theorem c1_dec_event_and_no_sep :
    (⟨⟨2025, 12, 15⟩, "BP", 1/10⟩ : DividendEvent)
        ∈ eventsOfHolding today2025 known_div_schedule bpRow ∧
    yearFor today2025 9 = 2027 ∧
    ¬ inWindow today2025 ⟨2027, 9, 15⟩ := by
  refine ⟨?_, by decide, by decide⟩
  rw [bp_events_eval]
  exact List.mem_singleton.2 rfl

/-- C6 counterexample: the holding with ticker ZZZ, absent from the
schedule mapping, produces no dividend events at all, contradicting the
claim that it is treated as a quarterly payer. -/
theorem c6_unknown_ticker_no_events :
    eventsOfHolding today2025 known_div_schedule zzRow = [] := by
  norm_num +decide [eventsOfHolding, known_div_schedule, zzRow, List.lookup]

/-- C6 amended: a holding whose ticker is absent from the schedule
mapping produces no dividend events; the quarterly/4-percent fallback
exists only as a comment in the table, not in the event-generation
path. -/
theorem c6_absent_ticker_amended (today : Date) (r : EnrichedHolding)
    (h : known_div_schedule.lookup r.slice = none) :
    eventsOfHolding today known_div_schedule r = [] := by
  simp only [eventsOfHolding, h]

/-- Witness for the amended C6 at a concrete date and the ZZZ row. -/
theorem c6_absent_ticker_amended_witness :
    eventsOfHolding ⟨2026, 2, 3⟩ known_div_schedule zzRow = [] :=
  c6_absent_ticker_amended ⟨2026, 2, 3⟩ zzRow (by decide)

/-- C7 counterexample: for a BP row with price 1, one share and
trailing yield 3.2 percent, the stored December event amount is 0.01,
the 2-decimal rounding of the formula value 0.008; the claim's exact
formula value 0.008 is not the stored amount. -/
theorem c7_amount_rounded_counterexample :
    eventsOfHolding today2025 known_div_schedule bp32Row
        = [⟨⟨2025, 12, 15⟩, "BP", 1/100⟩] ∧
    (1/100 : ℚ) ≠ amountFormula bp32Row 4 := by
  constructor
  · norm_num +decide [eventsOfHolding, known_div_schedule, bp32Row, List.lookup,
      List.filterMap_cons, List.filterMap_nil, Option.some_bind, Option.none_bind,
      monthNum, yearFor, today2025, inWindow, toRD, cumDays, isLeap,
      round2, roundHalfEven, amountFormula]
  · norm_num [amountFormula, bp32Row]

/-- C7 amended: every event a scheduled holding produces carries the
amount (last_price × (trailing_yield if positive else 0.04) / 4) ×
shares × (4 / len(months)), rounded to 2 decimal places (half to
even). -/
theorem c7_amount_formula_amended (today : Date)
    (sched : List (String × List String)) (r : EnrichedHolding)
    (months : List String) (hlk : sched.lookup r.slice = some months) :
    ∀ e ∈ eventsOfHolding today sched r,
      e.amount = round2 (amountFormula r months.length) := by
  intro e he
  simp only [eventsOfHolding, hlk] at he
  obtain ⟨m, hm, hfm⟩ := List.mem_filterMap.1 he
  rcases hmn : monthNum m with _ | mn <;> rw [hmn] at hfm
  · exact Option.noConfusion hfm
  · rw [Option.some_bind] at hfm
    split_ifs at hfm
    injection hfm with hfm
    subst hfm
    rfl

/-- Witness for the amended C7: the December BP event's stored amount
is the rounded formula value. -/
theorem c7_amount_formula_amended_witness :
    (⟨⟨2025, 12, 15⟩, "BP", 1/10⟩ : DividendEvent).amount
      = round2 (amountFormula bpRow (["Mar", "Jun", "Sep", "Dec"] : List String).length) :=
  c7_amount_formula_amended today2025 known_div_schedule bpRow
    ["Mar", "Jun", "Sep", "Dec"] (by decide) _
    (by rw [bp_events_eval]; exact List.mem_singleton.2 rfl)

/-- C10: no scheduled month strictly before the reference month ever
produces a dividend event: its doubly-incremented year places the
candidate pay date more than 365 days past the reference date, so the
window filter excludes it.  Stated as: every produced event's pay month
is at least the reference month. -/
theorem c10_old_months_excluded (today : Date) (hd : today.day ≤ 31)
    (sched : List (String × List String)) (r : EnrichedHolding) :
    ∀ e ∈ eventsOfHolding today sched r, today.month ≤ e.payDate.month := by
  intro e he
  unfold eventsOfHolding at he
  rcases hlk : sched.lookup r.slice with _ | months <;> rw [hlk] at he
  · exact absurd he (List.not_mem_nil e)
  · obtain ⟨m, hm, hfm⟩ := List.mem_filterMap.1 he
    rcases hmn : monthNum m with _ | mn <;> rw [hmn] at hfm
    · exact Option.noConfusion hfm
    · rw [Option.some_bind] at hfm
      dsimp only at hfm
      split_ifs at hfm with hw
      injection hfm with hfm
      subst hfm
      show today.month ≤ mn
      by_contra hlt
      push_neg at hlt
      have hy : yearFor today mn = today.year + 2 := by
        simp only [yearFor]; split_ifs <;> omega
      rw [hy] at hw
      obtain ⟨hw1, hw2⟩ := hw
      exact absurd hw2 (not_le.2 (payDate_far today mn hd))

/-- Witness for C10 at the reference date, the BP row and its December
event. -/
theorem c10_old_months_excluded_witness :
    today2025.month ≤ (⟨⟨2025, 12, 15⟩, "BP", 1/10⟩ : DividendEvent).payDate.month :=
  c10_old_months_excluded today2025 (by decide) known_div_schedule bpRow _
    (by rw [bp_events_eval]; exact List.mem_singleton.2 rfl)

/-- Dropping the some wrappers from a list of defined options recovers
the underlying list. -/
lemma reduceOption_map_some {α β : Type} (f : α → β) (l : List α) :
    (l.map (fun a => some (f a))).reduceOption = l.map f := by
  induction l with
  | nil => rfl
  | cons a t ih => simp [ih]

/-- Distributing a list sum over a common divisor. -/
lemma sum_map_div {α : Type} (l : List α) (f : α → ℚ) (t : ℚ) :
    (l.map (fun a => f a / t)).sum = (l.map f).sum / t := by
  induction l with
  | nil => simp
  | cons a s ih => simp [ih, add_div]

/-- C3 counterexample: on a portfolio whose only market value is 0, the
total is 0 and the computed weight is the non-finite 0/0 float (modelled
none), not the number 0 the claim requires. -/
theorem c3_zero_total_weights_nan :
    totalMV zeroRows = 0 ∧ weights zeroRows = [none] ∧
    (none : Option ℚ) ≠ some (0 : ℚ) := by
  have h0 : totalMV zeroRows = 0 := by norm_num [totalMV, zeroRows, marketValue]
  refine ⟨h0, ?_, by simp⟩
  norm_num [weights, zeroRows, pdDiv, totalMV, marketValue]

/-- C3 amended: with nonnegative prices and quantities, when the total
market value is positive every weight is a defined nonnegative number
and the weights sum to exactly 1 (hence within [0.999, 1.001]); when the
total market value is 0 every weight is the non-finite 0/0 (modelled
none), not 0. -/
theorem c3_weights_amended (rows : List EnrichedHolding)
    (hp : ∀ r ∈ rows, 0 ≤ r.price ∧ 0 ≤ r.qty) :
    (0 < totalMV rows →
      (∀ w ∈ weights rows, ∃ q, w = some q ∧ 0 ≤ q) ∧
      (999/1000 : ℚ) ≤ ((weights rows).reduceOption).sum ∧
      ((weights rows).reduceOption).sum ≤ (1001/1000 : ℚ)) ∧
    (totalMV rows = 0 → ∀ w ∈ weights rows, w = none) := by
  constructor
  · intro ht
    have hne : totalMV rows ≠ 0 := ne_of_gt ht
    have hw : weights rows
        = rows.map (fun r => some (marketValue r / totalMV rows)) := by
      simp [weights, pdDiv, hne]
    have hsum : ((weights rows).reduceOption).sum = 1 := by
      rw [hw, reduceOption_map_some, sum_map_div]
      exact div_self hne
    refine ⟨?_, by rw [hsum]; norm_num, by rw [hsum]; norm_num⟩
    intro w hwm
    rw [hw] at hwm
    obtain ⟨r, hr, rfl⟩ := List.mem_map.1 hwm
    have hmv : 0 ≤ marketValue r := mul_nonneg (hp r hr).1 (hp r hr).2
    exact ⟨_, rfl, div_nonneg hmv ht.le⟩
  · intro ht w hwm
    obtain ⟨r, hr, rfl⟩ := List.mem_map.1 hwm
    simp [pdDiv, ht]

/-- Witness for the amended C3 on a concrete one-row portfolio with
positive total: the weight sum lies within the tolerance band. -/
theorem c3_weights_amended_witness :
    (999/1000 : ℚ) ≤ ((weights rows1).reduceOption).sum ∧
    ((weights rows1).reduceOption).sum ≤ (1001/1000 : ℚ) :=
  ⟨((c3_weights_amended rows1
      (by norm_num [rows1])).1
      (by norm_num [totalMV, rows1, marketValue])).2.1,
   ((c3_weights_amended rows1
      (by norm_num [rows1])).1
      (by norm_num [totalMV, rows1, marketValue])).2.2⟩

/-- C4 counterexample: on a portfolio whose total market value is 0 the
forward-yield expression divides by zero and is the non-finite 0/0
(modelled none), not the number 0 the claim requires. -/
theorem c4_zero_total_yield_nan :
    totalMV zeroRows = 0 ∧ forwardYield zeroRows = none ∧
    forwardYield zeroRows ≠ some (0 : ℚ) := by
  have h0 : totalMV zeroRows = 0 := by norm_num [totalMV, zeroRows, marketValue]
  have h1 : forwardYield zeroRows = none := by simp [forwardYield, pdDiv, h0]
  exact ⟨h0, h1, by simp [h1]⟩

/-- C4 amended: when the total market value is positive the portfolio
forward yield is the weighted average sum of market_value times yield
divided by the total; when the total is 0 the code divides by zero
without a guard, producing the non-finite 0/0 (modelled none), not
0. -/
theorem c4_forward_yield_amended (rows : List EnrichedHolding) :
    (0 < totalMV rows →
      forwardYield rows
        = some ((rows.map (fun r => marketValue r * r.yield)).sum / totalMV rows)) ∧
    (totalMV rows = 0 → forwardYield rows = none) := by
  constructor
  · intro h
    simp [forwardYield, pdDiv, ne_of_gt h]
  · intro h
    simp [forwardYield, pdDiv, h]

/-- Witness for the amended C4 on a concrete portfolio with positive
total. -/
theorem c4_forward_yield_amended_witness :
    forwardYield rows1
      = some ((rows1.map (fun r => marketValue r * r.yield)).sum / totalMV rows1) :=
  (c4_forward_yield_amended rows1).1 (by norm_num [totalMV, rows1, marketValue])

/-- C5: the claim is right about the intended metric and the code is
wrong: line 144 evaluates the elementwise pandas Series
Market Value * mean(yield) without summing it, so on the two-holding
test portfolio the code's expression is the two-element series
[0.5, 2.0], not the single number 2.5 the spec's sum prescribes (and
formatting that Series with a numeric format specifier raises TypeError
at runtime). -/
theorem c5_income_series_not_summed :
    incomeSeries rows5 = [1/2, 2] ∧ specIncomeNext12m rows5 = 5/2 ∧
    incomeSeries rows5 ≠ [specIncomeNext12m rows5] := by
  have h1 : incomeSeries rows5 = [1/2, 2] := by
    norm_num [incomeSeries, rows5, marketValue, meanYield]
  have h2 : specIncomeNext12m rows5 = 5/2 := by
    norm_num [specIncomeNext12m, rows5, marketValue, meanYield]
  refine ⟨h1, h2, ?_⟩
  rw [h1, h2]
  simp only [ne_eq, List.cons.injEq, and_false, not_false_iff]
  norm_num

/-- C8: a holding whose quote fetch returns the unavailable sentinel
(price 0, previous close 0) is enriched with market value 0, and every
row of the table is still processed (the enriched table has one row per
input row; the embedded loop is a total function, matching the
source's catch-all provider that never raises). -/
theorem c8_sentinel_tolerance (quoteOf : String → ℚ × ℚ)
    (analystOf : String → String × Option ℚ × ℚ) (rows : List Holding) :
    (enrich quoteOf analystOf rows).length = rows.length ∧
    ∀ (i : ℕ) (r : Holding), rows[i]? = some r →
      quoteOf (r.slice ++ ".L") = (0, 0) →
      ∃ e, (enrich quoteOf analystOf rows)[i]? = some e ∧ marketValue e = 0 := by
  constructor
  · simp [enrich]
  · intro i r hi hq
    refine ⟨{ slice := r.slice, name := r.name, value := r.value, qty := r.qty,
              price := (quoteOf (r.slice ++ ".L")).1,
              yield := (analystOf r.slice).2.2 / 100 }, ?_, ?_⟩
    · unfold enrich
      rw [List.getElem?_map, hi]
      rfl
    · simp [marketValue, hq]

/-- Witness for C8: with the always-failing quote provider and a single
BP holding, the enriched table still has its row and that row's market
value is 0. -/
theorem c8_sentinel_tolerance_witness :
    (enrich qf0 af0 [sampleHolding]).length = 1 ∧
    ∃ e, (enrich qf0 af0 [sampleHolding])[0]? = some e ∧ marketValue e = 0 :=
  ⟨(c8_sentinel_tolerance qf0 af0 [sampleHolding]).1,
   (c8_sentinel_tolerance qf0 af0 [sampleHolding]).2 0 sampleHolding rfl rfl⟩

/-- C9: the monthly bucketing sums event amounts per "Mon YYYY" label,
the bucket totals are invariant under any permutation of the event
list, and two events sharing calendar month and year share the same
bucket label. -/
theorem c9_monthly_bucketing :
    (∀ (evs evs' : List DividendEvent), evs.Perm evs' →
      ∀ l, monthlyTotal evs l = monthlyTotal evs' l) ∧
    (∀ e e' : DividendEvent, e.payDate.month = e'.payDate.month →
      e.payDate.year = e'.payDate.year →
      monthLabel e.payDate = monthLabel e'.payDate) := by
  constructor
  · intro evs evs' hp l
    exact List.Perm.sum_eq ((hp.filter _).map _)
  · intro e e' h1 h2
    unfold monthLabel
    rw [h1, h2]

/-- Witness for C9: the two January 2026 events bucket to the single
label "Jan 2026" with total 25.25, in either input order. -/
theorem c9_monthly_bucketing_witness :
    monthlyTotal [jan1, jan2] "Jan 2026" = monthlyTotal [jan2, jan1] "Jan 2026" ∧
    monthlyTotal [jan1, jan2] "Jan 2026" = 101/4 ∧
    monthLabel jan1.payDate = monthLabel jan2.payDate :=
  ⟨c9_monthly_bucketing.1 [jan1, jan2] [jan2, jan1]
      (List.Perm.swap jan2 jan1 []) "Jan 2026",
   by norm_num +decide [monthlyTotal, jan1, jan2, monthLabel, monthAbbrev],
   c9_monthly_bucketing.2 jan1 jan2 rfl rfl⟩
